import Mathlib

/-!
Shallow embedding of the CryptoBay portfolio ledger and alert watcher
(src/CryptoBay_Pro_4_1/bot/main_bot.py).

Modelling choices:
- Python float amounts are modelled as exact rationals; the Python literal
  1e-10 is modelled as the rational 1/10^10.
- Python dicts are modelled as association lists with at most one live entry
  per key; dict assignment updates in place or appends, dict.pop removes the
  key, dict.get with a default is modelled by a lookup with a fallback.
- Each handler takes the loaded persistent state as an argument and returns
  the state that is saved back together with a reply value; the reply
  constructors carry exactly the data interpolated into the corresponding
  answer strings of the source, so a constructor without a numeric field
  corresponds to a constant message text.
- handle_exchange starts from the parsed command arguments: its split of a
  dispatched text into exactly four tokens cannot fail.  The edit handler
  handle_portfolio_edit instead embeds its in-function parse (strip,
  replace, whitespace split with a maxsplit bound, float conversion),
  because that parse fails on every dispatched text and its except branch is
  where the handler actually answers.
-/

def alookup {α β : Type} [DecidableEq α] (l : List (α × β)) (k : α) : Option β :=
  match l with
  | [] => none
  | (k2, v) :: t => if k2 = k then some v else alookup t k

def aset {α β : Type} [DecidableEq α] (l : List (α × β)) (k : α) (v : β) : List (α × β) :=
  match l with
  | [] => [(k, v)]
  | (k2, v2) :: t => if k2 = k then (k, v) :: t else (k2, v2) :: aset t k v

def aerase {α β : Type} [DecidableEq α] (l : List (α × β)) (k : α) : List (α × β) :=
  match l with
  | [] => []
  | (k2, v2) :: t => if k2 = k then aerase t k else (k2, v2) :: aerase t k

def symBTC : String := "BTC"

def symETH : String := "ETH"

def symUSDT : String := "USDT"

def cgBitcoin : String := "bitcoin"

def cgEthereum : String := "ethereum"

def cgTether : String := "tether"

def stUp : String := "up"

def stDown : String := "down"

def stNormal : String := "normal"

/-- The fixed supported-symbol table SYMBOL_TO_COINGECKO of the source. -/
def SYMBOL_TO_COINGECKO : List (String × String) :=
  [(symBTC, cgBitcoin), (symETH, cgEthereum), (symUSDT, cgTether)]

/-- Membership test mirroring the Python expression sym in SYMBOL_TO_COINGECKO. -/
def supported (sym : String) : Bool :=
  (alookup SYMBOL_TO_COINGECKO sym).isSome

/-- The cleanup threshold 1e-10 of the source, as an exact rational. -/
def eps : ℚ := 1 / 10000000000

/-- A per-user balance map: symbol to amount, as stored under the balances key. -/
abbrev Balances := List (String × ℚ)

/-- The price dictionary returned by get_prices_for_symbols: symbol to USD price.
An empty or partial list models feed failure or missing symbols. -/
abbrev Prices := List (String × ℚ)

/-- The watcher's last_state dictionary: user id to the stored state string. -/
abbrev LastState := List (Nat × String)

/-- Python balances.get(sym, 0.0). -/
def getBal (b : Balances) (sym : String) : ℚ :=
  (alookup b sym).getD 0

/-- Whether sym is a key of the balance map. -/
def hasBal (b : Balances) (sym : String) : Bool :=
  (alookup b sym).isSome

/-- Replies of handle_portfolio_edit, one constructor per answer call.
badFormat is the constant wrong-format message of the except branch;
badSymbol, badAmount and negativeBalance are the constant message texts of
the validation body; updated carries the symbol and new amount shown in the
success message.  None of the error messages interpolates any data. -/
inductive EditReply where
  | badFormat : EditReply
  | badSymbol : EditReply
  | badAmount : EditReply
  | negativeBalance : EditReply
  | updated : String → ℚ → EditReply
deriving DecidableEq

/-- The numeric amount interpolated into an EditReply message, if any:
the success message shows the new amount, while every error message of
handle_portfolio_edit is a constant string containing no amount. -/
def EditReply.reportedAmount : EditReply → Option ℚ
  | EditReply.updated _ q => some q
  | _ => none

/-- Lines 438 to 466 of handle_portfolio_edit: the validation and mutation
code after the try block, with isCredit true for a leading plus sign, sym
upper-cased and amount parsed.  It runs only when the unpack in the try
block yields three parts, which portfolio_parse_always_fails below shows
never happens for a dispatched text; it is embedded so the full handler is
total and so the intended behaviour of this body can still be stated. -/
def portfolio_edit_body (balances : Balances) (isCredit : Bool) (sym : String)
    (amount : ℚ) : Balances × EditReply :=
  if supported sym = false then (balances, EditReply.badSymbol)
  else if amount ≤ 0 then (balances, EditReply.badAmount)
  else
    let sign : ℚ := if isCredit then 1 else -1
    let current := getBal balances sym
    let newAmount := current + sign * amount
    if newAmount < 0 then (balances, EditReply.negativeBalance)
    else
      let balances2 :=
        if |newAmount| < eps then aerase balances sym
        else aset balances sym newAmount
      (balances2, EditReply.updated sym newAmount)


/-- Python str.replace(old, empty, 1) for a one-character old: removes the
first occurrence of that character, if any. -/
def removeFirst : List Char → Char → List Char
  | [], _ => []
  | c2 :: t, c => if c2 = c then t else c2 :: removeFirst t c

/-- Python str.replace(old, new) for one-character old and new: replaces
every occurrence. -/
def replaceAll (s : List Char) (c d : Char) : List Char :=
  s.map (fun x => if x = c then d else x)

/-- Worker for pySplit.  Mode true means the maxsplit bound was reached, so
the rest of the input accumulates into one final part; acc is the current
part reversed; n counts the splits still allowed. -/
def pySplitAux : Bool → List Char → Nat → List Char → List (List Char)
  | _, acc, _, [] => if acc.isEmpty then [] else [acc.reverse]
  | true, acc, n, c :: t => pySplitAux true (c :: acc) n t
  | false, acc, n, c :: t =>
    if c.isWhitespace then
      if acc.isEmpty then pySplitAux false [] n t
      else acc.reverse :: pySplitAux false [] (n - 1) t
    else if acc.isEmpty = true ∧ n = 0 then pySplitAux true [c] 0 t
    else pySplitAux false (c :: acc) n t

/-- Python str.split(maxsplit) with the default separator: runs of
whitespace separate the parts, leading and trailing whitespace produce no
empty parts, and once maxsplit splits have been made the remainder of the
string, from its next non-whitespace character to the very end, is kept
whole as the last part. -/
def pySplit (s : List Char) (maxsplit : Nat) : List (List Char) :=
  pySplitAux false [] maxsplit s

/-- Python str.strip. -/
def pyStrip (s : List Char) : List Char :=
  ((s.dropWhile Char.isWhitespace).reverse.dropWhile Char.isWhitespace).reverse

/-- Python text.startswith of the plus sign. -/
def startsWithPlus (s : List Char) : Bool :=
  match s with
  | c :: _ => c = '+'
  | [] => false

/-- Python str.upper, per character. -/
def strUpper (s : List Char) : List Char :=
  s.map Char.toUpper

/-- Decimal value of a run of digit characters. -/
def digitsToQ (l : List Char) : ℚ :=
  l.foldl (fun acc c => acc * 10 + ((c.toNat - 48 : ℕ) : ℚ)) 0

/-- Python float on the character class an edit command can contain after
the comma-to-dot replacement: digit runs with at most one dot and at least
one digit; anything else raises ValueError, modelled as none.  The wider
float grammar is not needed: this is only applied inside the unreachable
three-part arm of handle_portfolio_edit. -/
def pyFloatQ (s : List Char) : Option ℚ :=
  let ip := s.takeWhile (fun c => c != '.')
  let rest := s.dropWhile (fun c => c != '.')
  if (ip.all Char.isDigit) = false then none
  else
    match rest with
    | [] => if ip.isEmpty then none else some (digitsToQ ip)
    | _ :: fp =>
      if (fp.all Char.isDigit) = false then none
      else if ip.isEmpty = true ∧ fp.isEmpty = true then none
      else some (digitsToQ ip + digitsToQ fp / 10 ^ fp.length)

/-- The full handle_portfolio_edit, from the dispatched message text
(lines 421 to 466).  The text is stripped, the sign read from its first
character, and the try block parses with
text.replace(plus, empty, one).replace(minus, empty, one).split(maxsplit=2)
unpacked into three names, then upper-cases the symbol and converts the
amount; a failing unpack or conversion lands in the except branch, which
answers the constant bad-format message and leaves the ledger untouched. -/
def handle_portfolio_edit (balances : Balances) (msgText : List Char) :
    Balances × EditReply :=
  let text := pyStrip msgText
  let isCredit := startsWithPlus text
  match pySplit (removeFirst (removeFirst text '+') '-') 2 with
  | [_, symRaw, amountRaw] =>
    match pyFloatQ (replaceAll amountRaw ',' '.') with
    | some amount =>
      portfolio_edit_body balances isCredit (String.mk (strUpper symRaw)) amount
    | none => (balances, EditReply.badFormat)
  | _ => (balances, EditReply.badFormat)

/-- The shape after the sign that the dispatch pattern of
handle_portfolio_edit guarantees: optional whitespace, two to ten ascii
letters, whitespace, then a nonempty run of digits, dots and commas.
Whitespace is modelled by Char.isWhitespace. -/
def editRest (rest : List Char) : Prop :=
  ∃ ws symRaw ws2 amt,
    rest = ws ++ symRaw ++ ws2 ++ amt ∧
    (∀ c ∈ ws, c.isWhitespace = true) ∧
    2 ≤ symRaw.length ∧ symRaw.length ≤ 10 ∧
    (∀ c ∈ symRaw, c.isAlpha = true) ∧
    ws2 ≠ [] ∧ (∀ c ∈ ws2, c.isWhitespace = true) ∧
    amt ≠ [] ∧ (∀ c ∈ amt, (c.isDigit || c = '.' || c = ',') = true)

/-- A text matched by the dispatch pattern of handle_portfolio_edit: a plus
or minus sign followed by an editRest.  The pattern's end anchor also admits
one trailing newline, which the strip inside the handler removes, so the
shape constrains the stripped text. -/
def matchesEditRegex (text : List Char) : Prop :=
  ∃ sign rest, text = sign :: rest ∧ (sign = '+' ∨ sign = '-') ∧ editRest rest

/-- The rest, after the sign, of the demo commands: space, BTC, space, 1. -/
def demoEditRest : List Char :=
  [' ', 'B', 'T', 'C', ' ', '1']

/-- The credit command plus BTC 1 as a character list. -/
def demoCreditText : List Char :=
  ['+', ' ', 'B', 'T', 'C', ' ', '1']

/-- The debit command minus BTC 1 as a character list. -/
def demoDebit1Text : List Char :=
  ['-', ' ', 'B', 'T', 'C', ' ', '1']

/-- The over-debit command minus BTC 5 as a character list. -/
def demoDebitText : List Char :=
  ['-', ' ', 'B', 'T', 'C', ' ', '5']

/-- The credit command for 1e-11 BTC, with the decimal comma the command
syntax accepts. -/
def demoSubEpsCreditText : List Char :=
  ['+', ' ', 'B', 'T', 'C', ' ', '0', ',', '0', '0', '0', '0', '0',
   '0', '0', '0', '0', '0', '1']

/-- Replies of handle_exchange, one constructor per answer call.
insufficient carries the current from-balance shown in its message;
exchanged carries amount, from symbol, computed to-amount, to symbol and the
displayed rate price_from / price_to. -/
inductive ExchReply where
  | sameSymbol : ExchReply
  | badSymbol : ExchReply
  | badAmount : ExchReply
  | insufficient : ℚ → ExchReply
  | noPrices : ExchReply
  | exchanged : ℚ → String → ℚ → String → ℚ → ExchReply
deriving DecidableEq

/-- Whether an ExchReply is the success message. -/
def ExchReply.isOk : ExchReply → Bool
  | ExchReply.exchanged _ _ _ _ _ => true
  | _ => false

/-- handle_exchange after parsing: symbols already upper-cased, amount parsed.
The prices argument is the dictionary produced by get_prices_for_symbols for
the two symbols (empty on feed failure, and possibly missing a symbol the
feed did not price).  Returns the saved balance map and the reply. -/
def handle_exchange (balances : Balances) (fromSym toSym : String) (amount : ℚ)
    (prices : Prices) : Balances × ExchReply :=
  if fromSym = toSym then (balances, ExchReply.sameSymbol)
  else if supported fromSym = false ∨ supported toSym = false then
    (balances, ExchReply.badSymbol)
  else if amount ≤ 0 then (balances, ExchReply.badAmount)
  else
    let hav := getBal balances fromSym
    if hav < amount then (balances, ExchReply.insufficient hav)
    else
      match alookup prices fromSym, alookup prices toSym with
      | some priceFrom, some priceTo =>
        let usdValue := priceFrom * amount
        let toAmount := usdValue / priceTo
        let b1 := aset balances fromSym (hav - amount)
        let b2 := if getBal b1 fromSym ≤ 0 then aerase b1 fromSym else b1
        let b3 := aset b2 toSym (getBal b2 toSym + toAmount)
        (b3, ExchReply.exchanged amount fromSym toAmount toSym (priceFrom / priceTo))
      | _, _ => (balances, ExchReply.noPrices)

/-- handle_alerts_toggle: flips membership of uid in the ALERT_ENABLED set.
Returns the new set and true when alerts were just enabled (false when just
disabled).  The watcher's last_state dictionary is not an input and is not
touched by this handler, exactly as in the source. -/
def handle_alerts_toggle (alertEnabled : List Nat) (uid : Nat) : List Nat × Bool :=
  if uid ∈ alertEnabled then (alertEnabled.filter (fun u => u != uid), false)
  else (uid :: alertEnabled, true)

/-- The classification of a 24h change in price_watcher:
state starts normal, becomes up when change is at least the threshold, else
down when change is at most minus the threshold. -/
def classify (change threshold : ℚ) : String :=
  if threshold ≤ change then stUp
  else if change ≤ -threshold then stDown
  else stNormal

/-- The per-user loop body of one watcher cycle: for each subscribed uid in
order, read prev from last_state, send a message exactly when the state is
not normal and differs from prev (prev may be absent), then store the state.
Returns the updated last_state and the list of uids messaged, in order. -/
def alertFanout (uids : List Nat) (state : String) (lastState : LastState) :
    LastState × List Nat :=
  match uids with
  | [] => (lastState, [])
  | uid :: rest =>
    let prev := alookup lastState uid
    let ls2 := aset lastState uid state
    let res := alertFanout rest state ls2
    (res.1, if state ≠ stNormal ∧ prev ≠ some state then uid :: res.2 else res.2)

/-- The outcome of one completed iteration of the while loop in price_watcher:
the last_state dictionary afterwards, the users notified, and the seconds
slept before the next iteration. -/
structure CycleResult where
  lastState : LastState
  notified : List Nat
  sleepSeconds : Nat
deriving DecidableEq

/-- One completed iteration of price_watcher's while loop.  fetched models
get_btc_overview: none is a failed fetch (the exception is caught inside
get_btc_overview, which returns None), some none a snapshot whose change_24h
field is missing, some (some change) a usable snapshot.  When the
subscription set is empty no network work happens.  A completed body always
reaches asyncio.sleep(300); the sleep(60) branch runs only when an exception
escapes the body, which no path modelled here does. -/
def price_watcher_cycle (alertEnabled : List Nat) (lastState : LastState)
    (threshold : ℚ) (fetched : Option (Option ℚ)) : CycleResult :=
  match alertEnabled with
  | [] => ⟨lastState, [], 300⟩
  | _ =>
    match fetched with
    | some (some change) =>
      let state := classify change threshold
      let res := alertFanout alertEnabled state lastState
      ⟨res.1, res.2, 300⟩
    | _ => ⟨lastState, [], 300⟩

/-- Iterated watcher cycles over a list of fetch outcomes, with a fixed
subscription set; returns the list of notified-user lists, one per cycle. -/
def runWatcher (alertEnabled : List Nat) (threshold : ℚ) (lastState : LastState) :
    List (Option (Option ℚ)) → List (List Nat)
  | [] => []
  | f :: rest =>
    let res := price_watcher_cycle alertEnabled lastState threshold f
    res.notified :: runWatcher alertEnabled threshold res.lastState rest

/-- The observation sequence of the spec's watcher scenario:
changes +3.5, +3.6, -3.0, +0.1, +3.1 as successful fetches. -/
def demoChanges : List (Option (Option ℚ)) :=
  [some (some (7/2)), some (some (18/5)), some (some (-3)),
   some (some (1/10)), some (some (31/10))]

/-! ### Helper lemmas about association lists -/

theorem alookup_aset_self {α β : Type} [DecidableEq α] (l : List (α × β)) (k : α) (v : β) :
    alookup (aset l k v) k = some v := by
  induction l with
  | nil => simp [aset, alookup]
  | cons p t ih =>
    obtain ⟨k2, v2⟩ := p
    by_cases h : k2 = k
    · simp [aset, alookup, h]
    · simp [aset, alookup, h, ih]

theorem alookup_aset_ne {α β : Type} [DecidableEq α] (l : List (α × β)) (k : α) (v : β)
    (k2 : α) (h : k2 ≠ k) : alookup (aset l k v) k2 = alookup l k2 := by
  have hk : k ≠ k2 := Ne.symm h
  induction l with
  | nil => simp [aset, alookup, hk]
  | cons p t ih =>
    obtain ⟨k3, v3⟩ := p
    by_cases h3 : k3 = k
    · subst h3
      simp [aset, alookup, hk]
    · by_cases h4 : k3 = k2 <;> simp [aset, alookup, h, h3, h4, ih]

theorem alookup_aerase_self {α β : Type} [DecidableEq α] (l : List (α × β)) (k : α) :
    alookup (aerase l k) k = none := by
  induction l with
  | nil => simp [aerase, alookup]
  | cons p t ih =>
    obtain ⟨k2, v2⟩ := p
    by_cases h : k2 = k
    · simp [aerase, alookup, h, ih]
    · simp [aerase, alookup, h, ih]

theorem alookup_aerase_ne {α β : Type} [DecidableEq α] (l : List (α × β)) (k : α)
    (k2 : α) (h : k2 ≠ k) : alookup (aerase l k) k2 = alookup l k2 := by
  induction l with
  | nil => simp [aerase, alookup]
  | cons p t ih =>
    obtain ⟨k3, v3⟩ := p
    by_cases h3 : k3 = k
    · subst h3
      have hk : k3 ≠ k2 := Ne.symm h
      simp [aerase, alookup, hk, ih]
    · by_cases h4 : k3 = k2 <;> simp [aerase, alookup, h, h3, h4, ih]

theorem getBal_aset_self (b : Balances) (sym : String) (v : ℚ) :
    getBal (aset b sym v) sym = v := by
  simp [getBal, alookup_aset_self]

theorem getBal_aset_ne (b : Balances) (sym : String) (v : ℚ) (s2 : String) (h : s2 ≠ sym) :
    getBal (aset b sym v) s2 = getBal b s2 := by
  simp [getBal, alookup_aset_ne b sym v s2 h]

theorem getBal_aerase_self (b : Balances) (sym : String) :
    getBal (aerase b sym) sym = 0 := by
  simp [getBal, alookup_aerase_self]

theorem getBal_aerase_ne (b : Balances) (sym : String) (s2 : String) (h : s2 ≠ sym) :
    getBal (aerase b sym) s2 = getBal b s2 := by
  simp [getBal, alookup_aerase_ne b sym s2 h]

theorem hasBal_aset_self (b : Balances) (sym : String) (v : ℚ) :
    hasBal (aset b sym v) sym = true := by
  simp [hasBal, alookup_aset_self]

theorem hasBal_aerase_self (b : Balances) (sym : String) :
    hasBal (aerase b sym) sym = false := by
  simp [hasBal, alookup_aerase_self]

theorem eps_pos : 0 < eps := by
  norm_num [eps]

/-! ### Helper lemmas about the watcher's per-user fanout -/

theorem alertFanout_lookup_of_eq (uids : List Nat) (state : String) (ls : LastState)
    (uid : Nat) (h : alookup ls uid = some state) :
    alookup (alertFanout uids state ls).1 uid = some state := by
  induction uids generalizing ls with
  | nil => simpa [alertFanout] using h
  | cons u rest ih =>
    simp only [alertFanout]
    apply ih
    by_cases hu : uid = u
    · subst hu
      simp [alookup_aset_self]
    · rw [alookup_aset_ne ls u state uid hu]
      exact h

theorem alertFanout_lookup_mem (uids : List Nat) (state : String) (ls : LastState)
    (uid : Nat) (h : uid ∈ uids) :
    alookup (alertFanout uids state ls).1 uid = some state := by
  induction uids generalizing ls with
  | nil => cases h
  | cons u rest ih =>
    rcases List.mem_cons.mp h with h1 | h2
    · subst h1
      simp only [alertFanout]
      exact alertFanout_lookup_of_eq rest state _ uid (alookup_aset_self ls uid state)
    · simp only [alertFanout]
      exact ih _ h2

theorem alertFanout_notified_sub (uids : List Nat) (state : String) (ls : LastState)
    (uid : Nat) (h : uid ∈ (alertFanout uids state ls).2) : uid ∈ uids := by
  induction uids generalizing ls with
  | nil => simp [alertFanout] at h
  | cons u rest ih =>
    simp only [alertFanout] at h
    by_cases hf : state ≠ stNormal ∧ alookup ls u ≠ some state
    · rw [if_pos hf] at h
      rcases List.mem_cons.mp h with h1 | h2
      · exact h1 ▸ List.mem_cons_self u rest
      · exact List.mem_cons_of_mem u (ih _ h2)
    · rw [if_neg hf] at h
      exact List.mem_cons_of_mem u (ih _ h)

theorem alertFanout_notified_iff (uids : List Nat) (state : String) (ls : LastState)
    (uid : Nat) (hnd : uids.Nodup) (h : uid ∈ uids) :
    uid ∈ (alertFanout uids state ls).2 ↔
      (state ≠ stNormal ∧ alookup ls uid ≠ some state) := by
  induction uids generalizing ls with
  | nil => cases h
  | cons u rest ih =>
    obtain ⟨hnotin, hnd2⟩ := List.nodup_cons.mp hnd
    rcases List.mem_cons.mp h with h1 | h2
    · subst h1
      simp only [alertFanout]
      by_cases hf : state ≠ stNormal ∧ alookup ls uid ≠ some state
      · simp [if_pos hf, hf]
      · rw [if_neg hf]
        constructor
        · intro hmem
          exact absurd (alertFanout_notified_sub rest state _ uid hmem) hnotin
        · intro hc
          exact absurd hc hf
    · have hne : uid ≠ u := fun he => hnotin (he ▸ h2)
      simp only [alertFanout]
      by_cases hf : state ≠ stNormal ∧ alookup ls u ≠ some state
      · rw [if_pos hf]
        rw [List.mem_cons]
        have hrec := ih (aset ls u state) hnd2 h2
        rw [alookup_aset_ne ls u state uid hne] at hrec
        simp [hrec, hne]
      · rw [if_neg hf]
        have hrec := ih (aset ls u state) hnd2 h2
        rw [alookup_aset_ne ls u state uid hne] at hrec
        exact hrec

theorem hasBal_aset_ne (b : Balances) (sym : String) (v : ℚ) (s2 : String)
    (h : s2 ≠ sym) : hasBal (aset b sym v) s2 = hasBal b s2 := by
  simp [hasBal, alookup_aset_ne b sym v s2 h]

theorem hasBal_aerase_ne (b : Balances) (sym : String) (s2 : String)
    (h : s2 ≠ sym) : hasBal (aerase b sym) s2 = hasBal b s2 := by
  simp [hasBal, alookup_aerase_ne b sym s2 h]

/-! ### Helper lemmas about the edit-command parse -/

theorem ne_of_class (c d : Char) (p : Char → Bool) (h : p c = true) (hd : p d = false) :
    c ≠ d := by
  intro he
  subst he
  rw [hd] at h
  cases h

theorem ws_char_cases (c : Char) (h : c.isWhitespace = true) :
    c = ' ' ∨ c = '\t' ∨ c = '\r' ∨ c = '\n' := by
  simp only [Char.isWhitespace, Bool.or_eq_true, decide_eq_true_eq] at h
  tauto

theorem not_ws_of_alpha (c : Char) (h : c.isAlpha = true) : c.isWhitespace = false := by
  cases hb : c.isWhitespace with
  | false => rfl
  | true =>
    exfalso
    rcases ws_char_cases c hb with h1 | h1 | h1 | h1 <;> subst h1 <;>
      exact absurd h (by decide)

theorem not_ws_of_amount (c : Char) (h : (c.isDigit || c = '.' || c = ',') = true) :
    c.isWhitespace = false := by
  cases hb : c.isWhitespace with
  | false => rfl
  | true =>
    exfalso
    rcases ws_char_cases c hb with h1 | h1 | h1 | h1 <;> subst h1 <;>
      exact absurd h (by decide)

theorem removeFirst_not_mem (l : List Char) (c : Char) (h : ∀ x ∈ l, x ≠ c) :
    removeFirst l c = l := by
  induction l with
  | nil => rfl
  | cons c2 t ih =>
    simp only [removeFirst]
    rw [if_neg (h c2 (List.mem_cons_self c2 t))]
    rw [ih (fun x hx => h x (List.mem_cons_of_mem c2 hx))]

theorem pySplitAux_nil (mode : Bool) (acc : List Char) (n : Nat) :
    pySplitAux mode acc n [] = if acc.isEmpty then [] else [acc.reverse] := by
  cases mode <;> rfl

theorem pySplitAux_ws_cons_empty (n : Nat) (c : Char) (t : List Char)
    (hc : c.isWhitespace = true) :
    pySplitAux false [] n (c :: t) = pySplitAux false [] n t := by
  simp [pySplitAux, hc]

theorem pySplitAux_ws_cons_ne (acc : List Char) (n : Nat) (c : Char) (t : List Char)
    (hc : c.isWhitespace = true) (hacc : acc.isEmpty = false) :
    pySplitAux false acc n (c :: t)
      = acc.reverse :: pySplitAux false [] (n - 1) t := by
  simp [pySplitAux, hc, hacc]

theorem pySplitAux_tok_cons (acc : List Char) (n : Nat) (c : Char) (t : List Char)
    (hc : c.isWhitespace = false) (hn : n ≠ 0) :
    pySplitAux false acc n (c :: t) = pySplitAux false (c :: acc) n t := by
  simp [pySplitAux, hc, hn]

theorem pySplitAux_skip_ws (ws r : List Char) (n : Nat)
    (h : ∀ c ∈ ws, c.isWhitespace = true) :
    pySplitAux false [] n (ws ++ r) = pySplitAux false [] n r := by
  induction ws with
  | nil => rfl
  | cons c t ih =>
    rw [List.cons_append, pySplitAux_ws_cons_empty _ _ _ (h c (List.mem_cons_self c t))]
    exact ih (fun x hx => h x (List.mem_cons_of_mem c hx))

theorem pySplitAux_take_token (tok : List Char) (acc r : List Char) (n : Nat)
    (htok : ∀ c ∈ tok, c.isWhitespace = false) (hn : n ≠ 0) :
    pySplitAux false acc n (tok ++ r) = pySplitAux false (tok.reverse ++ acc) n r := by
  induction tok generalizing acc with
  | nil => simp
  | cons c t ih =>
    rw [List.cons_append, pySplitAux_tok_cons _ _ _ _ (htok c (List.mem_cons_self c t)) hn]
    rw [ih (c :: acc) (fun x hx => htok x (List.mem_cons_of_mem c hx))]
    congr 1
    simp

theorem pySplit_two_parts (ws symRaw ws2 amt : List Char)
    (hws : ∀ c ∈ ws, c.isWhitespace = true)
    (hsym_ne : symRaw ≠ []) (hsym : ∀ c ∈ symRaw, c.isWhitespace = false)
    (hws2_ne : ws2 ≠ []) (hws2 : ∀ c ∈ ws2, c.isWhitespace = true)
    (hamt_ne : amt ≠ []) (hamt : ∀ c ∈ amt, c.isWhitespace = false) :
    pySplit (ws ++ (symRaw ++ (ws2 ++ amt))) 2 = [symRaw, amt] := by
  obtain ⟨w, ws2t, rfl⟩ : ∃ w t2, ws2 = w :: t2 := by
    cases ws2 with
    | nil => exact absurd rfl hws2_ne
    | cons w t2 => exact ⟨w, t2, rfl⟩
  have haccne : (symRaw.reverse ++ ([] : List Char)).isEmpty = false := by
    cases symRaw with
    | nil => exact absurd rfl hsym_ne
    | cons a l => simp
  have hamtne2 : (amt.reverse ++ ([] : List Char)).isEmpty = false := by
    cases amt with
    | nil => exact absurd rfl hamt_ne
    | cons a l => simp
  unfold pySplit
  rw [pySplitAux_skip_ws ws _ 2 hws]
  rw [pySplitAux_take_token symRaw [] _ 2 hsym (by decide)]
  rw [List.cons_append]
  rw [pySplitAux_ws_cons_ne _ _ _ _ (hws2 w (List.mem_cons_self w ws2t)) haccne]
  rw [pySplitAux_skip_ws ws2t _ _ (fun x hx => hws2 x (List.mem_cons_of_mem w hx))]
  have hlast := pySplitAux_take_token amt [] [] (2 - 1) hamt (by decide)
  rw [List.append_nil] at hlast
  rw [hlast, pySplitAux_nil]
  rw [if_neg (by simp [hamtne2, hamt_ne])]
  simp

/-- The parse inside handle_portfolio_edit fails for every dispatched text:
after the replace calls remove the single leading sign, the remaining text
holds exactly two whitespace-separated parts, so the three-name unpack in
the try block raises and the handler answers the constant bad-format
message, leaving the ledger untouched. -/
theorem portfolio_parse_always_fails (b : Balances) (msgText : List Char)
    (h : matchesEditRegex (pyStrip msgText)) :
    handle_portfolio_edit b msgText = (b, EditReply.badFormat) := by
  obtain ⟨sign, rest, htext, hsign, ws, symRaw, ws2, amt, hrest, hws, hlen2, hlen10,
    halpha, hws2_ne, hws2, hamt_ne, hamt⟩ := h
  have hsym_ne : symRaw ≠ [] := by
    intro he
    rw [he] at hlen2
    simp at hlen2
  have hsym_nws : ∀ c ∈ symRaw, c.isWhitespace = false :=
    fun c hc => not_ws_of_alpha c (halpha c hc)
  have hamt_nws : ∀ c ∈ amt, c.isWhitespace = false :=
    fun c hc => not_ws_of_amount c (hamt c hc)
  have hrest_nosign : ∀ x ∈ rest, x ≠ '+' ∧ x ≠ '-' := by
    intro x hx
    rw [hrest] at hx
    simp only [List.append_assoc, List.mem_append] at hx
    rcases hx with hx | hx | hx | hx
    · exact ⟨ne_of_class x '+' Char.isWhitespace (hws x hx) (by decide),
        ne_of_class x '-' Char.isWhitespace (hws x hx) (by decide)⟩
    · exact ⟨ne_of_class x '+' Char.isAlpha (halpha x hx) (by decide),
        ne_of_class x '-' Char.isAlpha (halpha x hx) (by decide)⟩
    · exact ⟨ne_of_class x '+' Char.isWhitespace (hws2 x hx) (by decide),
        ne_of_class x '-' Char.isWhitespace (hws2 x hx) (by decide)⟩
    · exact ⟨ne_of_class x '+' (fun c => c.isDigit || c = '.' || c = ',')
          (hamt x hx) (by decide),
        ne_of_class x '-' (fun c => c.isDigit || c = '.' || c = ',')
          (hamt x hx) (by decide)⟩
  have hsplit : pySplit rest 2 = [symRaw, amt] := by
    rw [hrest, List.append_assoc, List.append_assoc]
    exact pySplit_two_parts ws symRaw ws2 amt hws hsym_ne hsym_nws hws2_ne hws2
      hamt_ne hamt_nws
  have hremove : removeFirst (removeFirst (pyStrip msgText) '+') '-' = rest := by
    rw [htext]
    rcases hsign with h1 | h1 <;> subst h1
    · have h2 : removeFirst ('+' :: rest) '+' = rest := by
        simp [removeFirst]
      rw [h2]
      exact removeFirst_not_mem rest _ (fun x hx => (hrest_nosign x hx).2)
    · have h3 : removeFirst rest '+' = rest :=
        removeFirst_not_mem rest _ (fun x hx => (hrest_nosign x hx).1)
      have h2 : removeFirst ('-' :: rest) '+' = '-' :: rest := by
        simp [removeFirst, h3]
      rw [h2]
      simp [removeFirst]
  simp only [handle_portfolio_edit]
  rw [hremove, hsplit]

/-- The demo over-debit command matches the dispatch pattern. -/
theorem demoDebitText_matches : matchesEditRegex (pyStrip demoDebitText) :=
  ⟨'-', [' ', 'B', 'T', 'C', ' ', '5'], by decide, Or.inr rfl,
    [' '], ['B', 'T', 'C'], [' '], ['5'], by decide, by decide, by decide,
    by decide, by decide, by decide, by decide, by decide, by decide⟩

/-- The rest of the demo commands has the shape the dispatch pattern
guarantees after the sign. -/
theorem demoEditRest_shape : editRest demoEditRest :=
  ⟨[' '], ['B', 'T', 'C'], [' '], ['1'], by decide, by decide, by decide,
    by decide, by decide, by decide, by decide, by decide, by decide⟩

/-! ### Claims -/

/-- Claim C1: whenever Convert (handle_exchange) replies with any error
message (same symbol, unsupported symbol, non-positive amount, insufficient
funds, or missing feed prices), the saved balance map is exactly the loaded
one: no half-applied conversion is possible. -/
theorem C1_convert_failure_leaves_ledger_unchanged (b : Balances) (f t : String)
    (a : ℚ) (p : Prices) (h : (handle_exchange b f t a p).2.isOk = false) :
    (handle_exchange b f t a p).1 = b := by
  by_cases h1 : f = t
  · simp [handle_exchange, h1]
  · by_cases h2 : supported f = false ∨ supported t = false
    · simp [handle_exchange, h1, h2]
    · by_cases h3 : a ≤ 0
      · simp [handle_exchange, h1, h2, h3]
      · by_cases h4 : getBal b f < a
        · simp [handle_exchange, h1, h2, h3, h4]
        · rcases hf : alookup p f with _ | pf
          · simp [handle_exchange, h1, h2, h3, h4, hf]
          · rcases ht : alookup p t with _ | pt
            · simp [handle_exchange, h1, h2, h3, h4, hf, ht]
            · exfalso
              simp [handle_exchange, h1, h2, h3, h4, hf, ht, ExchReply.isOk] at h

/-- Witness for C1 at a concrete failing input (exchange of a symbol into
itself on an empty ledger). -/
theorem C1_convert_failure_witness :
    (handle_exchange [] symBTC symBTC 1 []).1 = ([] : Balances) :=
  C1_convert_failure_leaves_ledger_unchanged [] symBTC symBTC 1 [] (by decide)

/-- Claim C7: a successful Convert debits exactly amount from the source,
credits exactly priceFrom * amount / priceTo to the destination, and reports
the effective rate priceFrom / priceTo. -/
theorem C7_convert_success_amounts (b : Balances) (f t : String) (a pf pt : ℚ)
    (p : Prices) (hft : f ≠ t) (hfs : supported f = true) (hts : supported t = true)
    (ha : 0 < a) (hhave : a ≤ getBal b f)
    (hpf : alookup p f = some pf) (hpt : alookup p t = some pt) :
    (handle_exchange b f t a p).2
        = ExchReply.exchanged a f (pf * a / pt) t (pf / pt) ∧
    getBal (handle_exchange b f t a p).1 t = getBal b t + pf * a / pt ∧
    getBal (handle_exchange b f t a p).1 f = getBal b f - a := by
  have h2 : ¬ (supported f = false ∨ supported t = false) := by simp [hfs, hts]
  have h3 : ¬ a ≤ 0 := not_le.mpr ha
  have h4 : ¬ getBal b f < a := not_lt.mpr hhave
  have htf : t ≠ f := Ne.symm hft
  have hb1 : getBal (aset b f (getBal b f - a)) f = getBal b f - a := getBal_aset_self b f _
  simp only [handle_exchange, if_neg hft, if_neg h2, if_neg h3, if_neg h4, hpf, hpt]
  by_cases hz : getBal (aset b f (getBal b f - a)) f ≤ 0
  · have hzero : getBal b f - a = 0 := by
      rw [hb1] at hz
      have : 0 ≤ getBal b f - a := by linarith
      linarith
    simp only [if_pos hz]
    refine ⟨trivial, ?_, ?_⟩
    · rw [getBal_aset_self,
        getBal_aerase_ne _ _ _ htf, getBal_aset_ne _ _ _ _ htf]
    · rw [getBal_aset_ne _ _ _ _ hft, getBal_aerase_self, hzero]
  · simp only [if_neg hz]
    refine ⟨trivial, ?_, ?_⟩
    · rw [getBal_aset_self, getBal_aset_ne _ _ _ _ htf]
    · rw [getBal_aset_ne _ _ _ _ hft, hb1]

/-- Witness for C7: the end-to-end example of the spec: 0.02 BTC held, prices
BTC 50000 and ETH 3000, converting 0.01 BTC yields 500/3000 ETH and rate
50000/3000. -/
theorem C7_convert_success_witness :
    (handle_exchange [(symBTC, 1/50)] symBTC symETH (1/100)
        [(symBTC, 50000), (symETH, 3000)]).2
      = ExchReply.exchanged (1/100) symBTC (50000 * (1/100) / 3000) symETH (50000 / 3000) ∧
    getBal (handle_exchange [(symBTC, 1/50)] symBTC symETH (1/100)
        [(symBTC, 50000), (symETH, 3000)]).1 symETH
      = getBal [(symBTC, 1/50)] symETH + 50000 * (1/100) / 3000 ∧
    getBal (handle_exchange [(symBTC, 1/50)] symBTC symETH (1/100)
        [(symBTC, 50000), (symETH, 3000)]).1 symBTC
      = getBal [(symBTC, 1/50)] symBTC - 1/100 :=
  C7_convert_success_amounts [(symBTC, 1/50)] symBTC symETH (1/100) 50000 3000
    [(symBTC, 50000), (symETH, 3000)] (by decide) (by decide) (by decide)
    (by norm_num) (by norm_num [getBal, alookup, symBTC])
    (by decide) (by decide)

/-- Claim C5: the watcher classifies a change as up when at least the
threshold, down when at most minus the threshold, normal otherwise; a
subscribed user is notified exactly when the new classification is not
normal and differs from the stored state, the stored state is always
updated; and on the observation sequence +3.5, +3.6, -3.0, +0.1, +3.1 with
threshold 2 and no prior state, notifications fire exactly at indices
0, 2 and 4. -/
theorem C5_classification_firing_and_scenario
    (thr change : ℚ) (uids : List Nat) (uid : Nat) (ls : LastState)
    (hthr : 0 < thr) (hmem : uid ∈ uids) (hnd : uids.Nodup) :
    (classify change thr = stUp ↔ thr ≤ change) ∧
    (classify change thr = stDown ↔ change ≤ -thr) ∧
    (classify change thr = stNormal ↔ (-thr < change ∧ change < thr)) ∧
    (uid ∈ (price_watcher_cycle uids ls thr (some (some change))).notified ↔
        (classify change thr ≠ stNormal ∧ alookup ls uid ≠ some (classify change thr))) ∧
    alookup (price_watcher_cycle uids ls thr (some (some change))).lastState uid
        = some (classify change thr) ∧
    ((runWatcher [uid] 2 [] demoChanges).map (fun l => decide (uid ∈ l))
        = [true, false, true, false, true]) := by
  refine ⟨?_, ?_, ?_, ?_, ?_, ?_⟩
  · by_cases h1 : thr ≤ change
    · simp [classify, h1]
    · by_cases h2 : change ≤ -thr <;>
        simp [classify, h1, h2, stUp, stDown, stNormal]
  · by_cases h1 : thr ≤ change
    · have h2 : ¬ change ≤ -thr := by linarith
      simp [classify, h1, h2, stUp, stDown]
    · by_cases h2 : change ≤ -thr <;>
        simp [classify, h1, h2, stDown, stNormal]
  · by_cases h1 : thr ≤ change
    · have h2 : ¬ change < thr := not_lt.mpr h1
      simp [classify, h1, h2, stUp, stNormal]
    · by_cases h2 : change ≤ -thr
      · have h3 : ¬ -thr < change := not_lt.mpr h2
        simp [classify, h1, h2, h3, stDown, stNormal]
      · have h3 : -thr < change := not_le.mp h2
        have h4 : change < thr := not_le.mp h1
        simp [classify, h1, h2, h3, h4]
  · cases uids with
    | nil => cases hmem
    | cons u t =>
      simp only [price_watcher_cycle]
      exact alertFanout_notified_iff (u :: t) _ ls uid hnd hmem
  · cases uids with
    | nil => cases hmem
    | cons u t =>
      simp only [price_watcher_cycle]
      exact alertFanout_lookup_mem (u :: t) _ ls uid hmem
  · norm_num [runWatcher, price_watcher_cycle, alertFanout, classify, demoChanges,
      alookup, aset, stUp, stDown, stNormal]
    decide

/-- Witness for C5 at threshold 2, change 5, a single subscribed user 7 with
no stored state. -/
theorem C5_classification_witness :
    (classify 5 2 = stUp ↔ (2:ℚ) ≤ 5) ∧
    (classify 5 2 = stDown ↔ (5:ℚ) ≤ -2) ∧
    (classify 5 2 = stNormal ↔ ((-2:ℚ) < 5 ∧ (5:ℚ) < 2)) ∧
    ((7:Nat) ∈ (price_watcher_cycle [7] [] 2 (some (some 5))).notified ↔
        (classify 5 2 ≠ stNormal ∧ alookup [] 7 ≠ some (classify 5 2))) ∧
    alookup (price_watcher_cycle [7] [] 2 (some (some 5))).lastState 7
        = some (classify 5 2) ∧
    ((runWatcher [7] 2 [] demoChanges).map (fun l => decide ((7:Nat) ∈ l))
        = [true, false, true, false, true]) :=
  C5_classification_firing_and_scenario 2 5 [7] 7 [] (by norm_num)
    (by decide) (by decide)

/-- Counterexample to claim C3: a freshly subscribed user with no stored
state (empty last_state) who first observes a change of +3.5 at threshold 2
is notified immediately, because the comparison state differs from the
absent previous value; the claim says the first observation never triggers a
delivery. -/
theorem C3_counterexample_first_observation_notifies :
    (price_watcher_cycle [7] [] 2 (some (some (7/2)))).notified = [7] := by
  with_unfolding_all decide

/-- Amended C3: the first observation of a freshly subscribed user records
the classification as the stored baseline, and it triggers a delivery
exactly when the observed classification is directional (up or down); only a
first observation classified normal is silent. -/
theorem C3_amended_first_observation (uids : List Nat) (uid : Nat) (ls : LastState)
    (thr change : ℚ) (hmem : uid ∈ uids) (hnd : uids.Nodup)
    (hfresh : alookup ls uid = none) :
    alookup (price_watcher_cycle uids ls thr (some (some change))).lastState uid
        = some (classify change thr) ∧
    (uid ∈ (price_watcher_cycle uids ls thr (some (some change))).notified ↔
        classify change thr ≠ stNormal) := by
  cases uids with
  | nil => cases hmem
  | cons u t =>
    simp only [price_watcher_cycle]
    constructor
    · exact alertFanout_lookup_mem (u :: t) _ ls uid hmem
    · rw [alertFanout_notified_iff (u :: t) _ ls uid hnd hmem, hfresh]
      simp

/-- Witness for the amended C3 with user 7, empty stored state, threshold 2
and first observation +3.5. -/
theorem C3_amended_witness :
    alookup (price_watcher_cycle [7] [] 2 (some (some (7/2)))).lastState 7
        = some (classify (7/2) 2) ∧
    ((7:Nat) ∈ (price_watcher_cycle [7] [] 2 (some (some (7/2)))).notified ↔
        classify (7/2) 2 ≠ stNormal) :=
  C3_amended_first_observation [7] 7 [] 2 (7/2) (by decide) (by decide) (by decide)

/-- Counterexample to claim C4: when the snapshot fetch fails,
get_btc_overview catches the error internally and returns None, so the
watcher body completes normally and sleeps the nominal 300 seconds, not the
60-second error interval the claim asserts. -/
theorem C4_counterexample_failed_fetch_sleeps_300 :
    (price_watcher_cycle [7] [] 2 none).sleepSeconds = 300 ∧
    (price_watcher_cycle [7] [] 2 none).sleepSeconds ≠ 60 := by
  decide

/-- Amended C4: a cycle whose fetch fails (or returns a snapshot without a
24h change) mutates no per-user state, notifies nobody, and waits the
nominal 300 seconds; the 60-second interval applies only to an exception
escaping the loop body, which a failed fetch does not raise. -/
theorem C4_amended_fetch_failure_no_mutation (uids : List Nat) (ls : LastState)
    (thr : ℚ) :
    price_watcher_cycle uids ls thr none = ⟨ls, [], 300⟩ ∧
    price_watcher_cycle uids ls thr (some none) = ⟨ls, [], 300⟩ := by
  cases uids <;> exact ⟨rfl, rfl⟩

/-- Counterexample to claim C2: converting 1e-10 BTC out of a balance of
1.5e-10 BTC leaves BTC in the balance map with the positive sub-epsilon
value 0.5e-10, because the convert debit leg removes the key only when the
remainder is at most zero, not when it is below epsilon. -/
theorem C2_counterexample_convert_keeps_subepsilon_residue :
    hasBal (handle_exchange [(symBTC, 3/20000000000)] symBTC symUSDT (1/10000000000)
        [(symBTC, 2), (symUSDT, 1)]).1 symBTC = true ∧
    getBal (handle_exchange [(symBTC, 3/20000000000)] symBTC symUSDT (1/10000000000)
        [(symBTC, 2), (symUSDT, 1)]).1 symBTC < eps ∧
    0 < getBal (handle_exchange [(symBTC, 3/20000000000)] symBTC symUSDT (1/10000000000)
        [(symBTC, 2), (symUSDT, 1)]).1 symBTC := by
  norm_num [handle_exchange, getBal, hasBal, alookup, aset, aerase, eps, supported,
    SYMBOL_TO_COINGECKO, symBTC, symETH, symUSDT, cgBitcoin, cgEthereum, cgTether]

/-- Counterexample to claim C9: user 7 has stored state up, unsubscribes and
resubscribes; on the next cycle with an up observation the watcher sends
nothing, because last_state survived the unsubscribe and is consulted, while
a genuinely fresh user with no stored state would be notified on the same
observation. -/
theorem C9_counterexample_state_survives_resubscribe :
    (handle_alerts_toggle (handle_alerts_toggle [7] 7).1 7).1 = [7] ∧
    (price_watcher_cycle (handle_alerts_toggle (handle_alerts_toggle [7] 7).1 7).1
        [(7, stUp)] 2 (some (some (7/2)))).notified = [] ∧
    (price_watcher_cycle [7] [] 2 (some (some (7/2)))).notified = [7] := by
  with_unfolding_all decide

/-- Amended C9: unsubscribing does not discard the stored alert state; after
a user unsubscribes and resubscribes, the next observation is compared
against the retained pre-unsubscribe state, notifying exactly when the new
classification is directional and differs from that retained state. -/
theorem C9_amended_retained_state_consulted (uid : Nat) (s : String) (ls : LastState)
    (thr change : ℚ) (hs : alookup ls uid = some s) :
    (handle_alerts_toggle (handle_alerts_toggle [uid] uid).1 uid).1 = [uid] ∧
    ((price_watcher_cycle (handle_alerts_toggle (handle_alerts_toggle [uid] uid).1 uid).1
        ls thr (some (some change))).notified = [uid] ↔
      (classify change thr ≠ stNormal ∧ s ≠ classify change thr)) := by
  have htog : (handle_alerts_toggle (handle_alerts_toggle [uid] uid).1 uid).1 = [uid] := by
    simp [handle_alerts_toggle]
  refine ⟨htog, ?_⟩
  rw [htog]
  simp only [price_watcher_cycle, alertFanout, hs, ne_eq, Option.some.injEq]
  by_cases h1 : classify change thr = stNormal
  · simp [h1]
  · by_cases h2 : s = classify change thr
    · simp [h1, h2]
    · simp [h1, h2]

/-- Witness for the amended C9 with retained state up, threshold 2 and a new
up observation: no notification fires because the retained state matches. -/
theorem C9_amended_witness :
    (handle_alerts_toggle (handle_alerts_toggle [7] 7).1 7).1 = [7] ∧
    ((price_watcher_cycle (handle_alerts_toggle (handle_alerts_toggle [7] 7).1 7).1
        [(7, stUp)] 2 (some (some 5))).notified = [7] ↔
      (classify 5 2 ≠ stNormal ∧ stUp ≠ classify 5 2)) :=
  C9_amended_retained_state_consulted 7 stUp [(7, stUp)] 2 5 (by decide)

/-- Amended C2: the epsilon cleanup of a Debit exists only in the
unreachable body of the edit handler, whose parse fails for every dispatched
command; a real Debit command answers the constant bad-format message and
removes nothing, while the debit leg of Convert removes the source symbol
exactly when the remainder is at most zero, so a positive remainder below
epsilon stays in the map. -/
theorem C2_amended_cleanup_rules (b : Balances) (msgText : List Char) (f t : String)
    (a : ℚ) (p : Prices) (pf pt : ℚ) :
    (matchesEditRegex (pyStrip msgText) →
        handle_portfolio_edit b msgText = (b, EditReply.badFormat)) ∧
    (f ≠ t → supported f = true → supported t = true → 0 < a → a ≤ getBal b f →
        alookup p f = some pf → alookup p t = some pt →
        (hasBal (handle_exchange b f t a p).1 f = true ↔ 0 < getBal b f - a)) := by
  constructor
  · intro h
    exact portfolio_parse_always_fails b msgText h
  · intro hft hfs hts ha hhave hpf hpt
    have h2 : ¬ (supported f = false ∨ supported t = false) := by simp [hfs, hts]
    have h3 : ¬ a ≤ 0 := not_le.mpr ha
    have h4 : ¬ getBal b f < a := not_lt.mpr hhave
    have hb1 : getBal (aset b f (getBal b f - a)) f = getBal b f - a :=
      getBal_aset_self b f _
    simp only [handle_exchange, if_neg hft, if_neg h2, if_neg h3, if_neg h4, hpf, hpt]
    by_cases hz : getBal (aset b f (getBal b f - a)) f ≤ 0
    · rw [hb1] at hz
      simp only [hb1, if_pos hz]
      rw [hasBal_aset_ne _ _ _ _ hft, hasBal_aerase_self]
      constructor
      · intro hfalse
        cases hfalse
      · intro hpos
        linarith
    · rw [hb1] at hz
      simp only [hb1, if_neg hz]
      rw [hasBal_aset_ne _ _ _ _ hft, hasBal_aset_self]
      constructor
      · intro _
        linarith [not_le.mp hz]
      · intro _
        rfl

/-- Witness for the amended C2: the over-debit command fails with the
bad-format reply and an unchanged ledger, while the convert of the
counterexample keeps the positive sub-epsilon BTC remainder. -/
theorem C2_amended_witness :
    handle_portfolio_edit [(symBTC, 1)] demoDebitText
        = ([(symBTC, 1)], EditReply.badFormat) ∧
    (hasBal (handle_exchange [(symBTC, 3/20000000000)] symBTC symUSDT (1/10000000000)
        [(symBTC, 2), (symUSDT, 1)]).1 symBTC = true ↔
      0 < getBal [(symBTC, 3/20000000000)] symBTC - 1/10000000000) :=
  ⟨(C2_amended_cleanup_rules [(symBTC, 1)] demoDebitText symBTC symUSDT 1 [] 0 0).1
      demoDebitText_matches,
    (C2_amended_cleanup_rules [(symBTC, 3/20000000000)] demoDebitText symBTC symUSDT
        (1/10000000000) [(symBTC, 2), (symUSDT, 1)] 2 1).2
      (by decide) (by decide) (by decide) (by norm_num)
      (by norm_num [getBal, alookup, symBTC]) (by decide) (by decide)⟩

/-- Counterexample to claim C6: the over-debit command minus BTC 5 on a
ledger holding 1 BTC does not fail with an insufficient-funds message that
reports the balance; the unpack in the try block raises first, so the
handler answers the constant bad-format message, which carries no number. -/
theorem C6_counterexample_debit_fails_at_parse :
    handle_portfolio_edit [(symBTC, 1)] demoDebitText
        = ([(symBTC, 1)], EditReply.badFormat) ∧
    EditReply.reportedAmount (handle_portfolio_edit [(symBTC, 1)] demoDebitText).2
        = none := by
  with_unfolding_all decide

/-- Amended C6: every debit command, in particular one beyond the current
balance, fails at the in-function parse with the constant bad-format
message, leaving the balance map unchanged and reporting no number; the
insufficient-funds reply that does report the current balance exists only
in the convert handler. -/
theorem C6_amended_debit_failure (b : Balances) (msgText : List Char) (f t : String)
    (a : ℚ) (p : Prices) (h : matchesEditRegex (pyStrip msgText)) :
    (handle_portfolio_edit b msgText = (b, EditReply.badFormat) ∧
      EditReply.reportedAmount (handle_portfolio_edit b msgText).2 = none) ∧
    (f ≠ t → supported f = true → supported t = true → 0 < a → getBal b f < a →
        handle_exchange b f t a p = (b, ExchReply.insufficient (getBal b f))) := by
  constructor
  · have he := portfolio_parse_always_fails b msgText h
    rw [he]
    exact ⟨rfl, rfl⟩
  · intro hft hfs hts ha hlt
    have h2 : ¬ (supported f = false ∨ supported t = false) := by simp [hfs, hts]
    have h3 : ¬ a ≤ 0 := not_le.mpr ha
    simp only [handle_exchange, if_neg hft, if_neg h2, if_neg h3, if_pos hlt]

/-- Witness for the amended C6: over-debiting 5 BTC from a balance of 1
through the edit command yields the constant bad-format reply with no
number, while the same attempt through convert reports the balance of 1. -/
theorem C6_amended_witness :
    (handle_portfolio_edit [(symBTC, 1)] demoDebitText
        = ([(symBTC, 1)], EditReply.badFormat) ∧
      EditReply.reportedAmount (handle_portfolio_edit [(symBTC, 1)] demoDebitText).2
        = none) ∧
    handle_exchange [(symBTC, 1)] symBTC symUSDT 5 []
        = ([(symBTC, 1)], ExchReply.insufficient (getBal [(symBTC, 1)] symBTC)) :=
  ⟨(C6_amended_debit_failure [(symBTC, 1)] demoDebitText symBTC symUSDT 5 []
      demoDebitText_matches).1,
    (C6_amended_debit_failure [(symBTC, 1)] demoDebitText symBTC symUSDT 5 []
      demoDebitText_matches).2
      (by decide) (by decide) (by decide) (by norm_num)
      (by norm_num [getBal, alookup, symBTC])⟩

/-- Claim C8: a Credit of a followed by a Debit of the same a leaves the
balance for SYM exactly as before.  This holds for every ledger state and
amount, degenerately: both edit commands fail the in-function parse and
leave the ledger untouched.  The hypotheses fix the two commands to a plus
and a minus command sharing the same symbol-and-amount text. -/
theorem C8_roundtrip_holds (b : Balances) (sym : String) (t1 t2 rest : List Char)
    (hp : pyStrip t1 = '+' :: rest) (hm : pyStrip t2 = '-' :: rest)
    (h : editRest rest) :
    getBal (handle_portfolio_edit (handle_portfolio_edit b t1).1 t2).1 sym
      = getBal b sym := by
  have h1 : handle_portfolio_edit b t1 = (b, EditReply.badFormat) :=
    portfolio_parse_always_fails b t1 ⟨'+', rest, hp, Or.inl rfl, h⟩
  have h2 : handle_portfolio_edit b t2 = (b, EditReply.badFormat) :=
    portfolio_parse_always_fails b t2 ⟨'-', rest, hm, Or.inr rfl, h⟩
  simp only [h1, h2]

/-- Witness for C8: crediting and debiting 1 BTC on a ledger holding 2 BTC
through the command texts leaves the BTC balance at its prior value. -/
theorem C8_roundtrip_witness :
    getBal (handle_portfolio_edit
        (handle_portfolio_edit [(symBTC, 2)] demoCreditText).1 demoDebit1Text).1 symBTC
      = getBal [(symBTC, 2)] symBTC :=
  C8_roundtrip_holds [(symBTC, 2)] symBTC demoCreditText demoDebit1Text demoEditRest
    (by decide) (by decide) demoEditRest_shape

/-- Claim C10 describes the unreachable body: at the failing input (empty
ledger, credit command for 1e-11 BTC) the real handler answers the constant
bad-format message, reports no success, and leaves BTC absent, while the
body behind the always-failing parse would have reported the update as
successful and still dropped the key, exactly as the claim says. -/
theorem C10_subepsilon_credit_code_bug :
    handle_portfolio_edit [] demoSubEpsCreditText = ([], EditReply.badFormat) ∧
    hasBal (handle_portfolio_edit [] demoSubEpsCreditText).1 symBTC = false ∧
    (portfolio_edit_body [] true symBTC (1/100000000000)).2
        = EditReply.updated symBTC (1/100000000000) ∧
    hasBal (portfolio_edit_body [] true symBTC (1/100000000000)).1 symBTC = false := by
  refine ⟨?_, ?_, ?_, ?_⟩
  · with_unfolding_all decide
  · with_unfolding_all decide
  · norm_num [portfolio_edit_body, getBal, hasBal, alookup, aset, aerase, eps,
      supported, SYMBOL_TO_COINGECKO, symBTC, symETH, symUSDT, cgBitcoin,
      cgEthereum, cgTether, abs_lt]
  · norm_num [portfolio_edit_body, getBal, hasBal, alookup, aset, aerase, eps,
      supported, SYMBOL_TO_COINGECKO, symBTC, symETH, symUSDT, cgBitcoin,
      cgEthereum, cgTether, abs_lt]
